import Mathlib

/-!
Verification of the poker betting engine (crates/poker-engine) against its
natural-language specification.  The Rust sources are shallowly embedded:
`u64` chip counts become `Nat` (chip arithmetic never relies on wrap-around;
`saturating_sub` is exactly truncated `Nat` subtraction), `HashMap<usize,u64>`
with `unwrap_or(0)` reads becomes a total function `Nat → Nat`, `Vec` becomes
`List`, and fallible code returns `Except PokerError`.  Rust panics
(`unwrap` on `None`) are modelled with `Option`, `none` standing for a panic.
The hand-ranking evaluator is, per the specification, an external oracle and
is passed as a parameter wherever showdown code consumes it.
-/

namespace Poker

/-- Suit of a card, from card.rs. -/
inductive Suit where
  | Clubs | Diamonds | Hearts | Spades
deriving DecidableEq

/-- Rank of a card, from card.rs. -/
inductive Rank where
  | Two | Three | Four | Five | Six | Seven | Eight | Nine | Ten
  | Jack | Queen | King | Ace
deriving DecidableEq

/-- A playing card, from card.rs. -/
structure Card where
  rank : Rank
  suit : Suit
deriving DecidableEq

/-- Card::new. -/
def Card.new (rank : Rank) (suit : Suit) : Card := ⟨rank, suit⟩

/-- The fresh (unshuffled) 52-card deck built by Deck::new in deck.rs:
outer loop over suits, inner loop over ranks. -/
def Deck.newCards : List Card :=
  ([Suit.Clubs, Suit.Diamonds, Suit.Hearts, Suit.Spades].map fun suit =>
    ([Rank.Two, Rank.Three, Rank.Four, Rank.Five, Rank.Six, Rank.Seven,
      Rank.Eight, Rank.Nine, Rank.Ten, Rank.Jack, Rank.Queen, Rank.King,
      Rank.Ace].map fun rank => Card.new rank suit)).flatten

/-- PlayerStatus from player.rs. -/
inductive PlayerStatus where
  | Active | Folded | AllIn | SittingOut
deriving DecidableEq

/-- PokerError from errors.rs.  Message strings are kept but their exact
wording plays no role in any claim. -/
inductive PokerError where
  | InsufficientChips (needed available : Nat)
  | InvalidAction (msg : String)
  | InvalidGameState (msg : String)
  | PlayerNotFound (id : Nat)
  | InvalidBetAmount (msg : String)
  | HandEvaluationError (msg : String)
deriving DecidableEq

/-- Player from player.rs.  Hole cards are an optional pair (the source
uses `Option<[Card; 2]>`). -/
structure Player where
  id : Nat
  name : String
  chips : Nat
  hole_cards : Option (Card × Card)
  status : PlayerStatus
  current_bet : Nat
  total_bet_this_round : Nat
deriving DecidableEq

/-- Player::new. -/
def Player.new (id : Nat) (name : String) (chips : Nat) : Player :=
  { id := id, name := name, chips := chips, hole_cards := none,
    status := PlayerStatus.Active, current_bet := 0, total_bet_this_round := 0 }

instance : Inhabited Player := ⟨Player.new 0 ("") 0⟩

/-- Player::deal_hole_cards. -/
def Player.deal_hole_cards (p : Player) (cards : Card × Card) : Player :=
  { p with hole_cards := some cards }

/-- Player::fold. -/
def Player.fold (p : Player) : Player :=
  { p with status := PlayerStatus.Folded }

/-- Player::bet.  Errs when the amount exceeds the stack (before any
mutation); on success deducts chips, accumulates both bet counters and
switches status to AllIn exactly when the stack is exhausted. -/
def Player.bet (p : Player) (amount : Nat) : Except PokerError Player :=
  if amount > p.chips then
    .error (.InsufficientChips amount p.chips)
  else
    let p := { p with chips := p.chips - amount,
                      current_bet := p.current_bet + amount,
                      total_bet_this_round := p.total_bet_this_round + amount }
    .ok (if p.chips = 0 then { p with status := PlayerStatus.AllIn } else p)

/-- Player::reset_current_bet. -/
def Player.reset_current_bet (p : Player) : Player :=
  { p with current_bet := 0 }

/-- Player::reset_for_new_hand. -/
def Player.reset_for_new_hand (p : Player) : Player :=
  { p with hole_cards := none,
           status := if p.chips > 0 then PlayerStatus.Active
                     else PlayerStatus.SittingOut,
           current_bet := 0, total_bet_this_round := 0 }

/-- Player::win_chips. -/
def Player.win_chips (p : Player) (amount : Nat) : Player :=
  { p with chips := p.chips + amount }

/-- Player::is_active. -/
def Player.is_active (p : Player) : Bool :=
  p.status == PlayerStatus.Active || p.status == PlayerStatus.AllIn

/-- Player::can_act. -/
def Player.can_act (p : Player) : Bool :=
  p.status == PlayerStatus.Active && p.chips > 0

/-- Action from game.rs. -/
inductive Action where
  | Fold | Check | Call
  | Bet (amount : Nat)
  | Raise (amount : Nat)
  | AllIn
deriving DecidableEq

/-- BettingRules from betting.rs. -/
structure BettingRules where
  small_blind : Nat
  big_blind : Nat
  min_raise : Nat
deriving DecidableEq

/-- BettingRules::new. -/
def BettingRules.new (small_blind big_blind : Nat) : BettingRules :=
  { small_blind := small_blind, big_blind := big_blind, min_raise := big_blind }

/-- BettingRound from betting.rs.  The HashMap of per-player bets is read
only through unwrap_or(0), so it is modelled as a total function. -/
structure BettingRound where
  current_bet : Nat
  minimum_raise : Nat
  last_aggressor : Option Nat
  player_bets : Nat → Nat
  total_pot : Nat

/-- BettingRound::new. -/
def BettingRound.new : BettingRound :=
  { current_bet := 0, minimum_raise := 0, last_aggressor := none,
    player_bets := fun _ => 0, total_pot := 0 }

/-- BettingRound::reset (note: total_pot is deliberately not reset in the
source). -/
def BettingRound.reset (r : BettingRound) : BettingRound :=
  { r with current_bet := 0, minimum_raise := 0, last_aggressor := none,
           player_bets := fun _ => 0 }

/-- BettingRound::player_bet_amount. -/
def BettingRound.player_bet_amount (r : BettingRound) (player_id : Nat) : Nat :=
  r.player_bets player_id

/-- BettingRound::amount_to_call (saturating subtraction is Nat
subtraction). -/
def BettingRound.amount_to_call (r : BettingRound) (player_id : Nat) : Nat :=
  r.current_bet - r.player_bet_amount player_id

/-- BettingValidator::validate_action from betting.rs; the validator struct
only carries the rules, which are passed directly. -/
def validate_action (rules : BettingRules) (action : Action) (player : Player)
    (round : BettingRound) : Except PokerError Unit :=
  match action with
  | Action.Fold =>
    if !player.can_act then
      .error (.InvalidAction ("Player cannot act"))
    else .ok ()
  | Action.Check =>
    if round.amount_to_call player.id > 0 then
      .error (.InvalidAction ("Cannot check when there is a bet to call"))
    else .ok ()
  | Action.Call =>
    let call_amount := round.amount_to_call player.id
    if call_amount = 0 then
      .error (.InvalidAction ("Nothing to call, use check instead"))
    else if call_amount > player.chips then
      .error (.InsufficientChips call_amount player.chips)
    else .ok ()
  | Action.Bet amount =>
    if round.current_bet > 0 then
      .error (.InvalidAction ("Cannot bet when there is already a bet, use raise"))
    else if amount < rules.big_blind then
      .error (.InvalidBetAmount ("Minimum bet is " ++ toString rules.big_blind))
    else if amount > player.chips then
      .error (.InsufficientChips amount player.chips)
    else .ok ()
  | Action.Raise raise_amount =>
    if round.current_bet = 0 then
      .error (.InvalidAction ("Cannot raise when there is no bet, use bet instead"))
    else
      let min_raise := max round.minimum_raise rules.big_blind
      if raise_amount < min_raise then
        .error (.InvalidBetAmount ("Minimum raise is " ++ toString min_raise))
      else
        let total_amount := round.amount_to_call player.id + raise_amount
        if total_amount > player.chips then
          .error (.InsufficientChips total_amount player.chips)
        else .ok ()
  | Action.AllIn =>
    if player.chips = 0 then
      .error (.InvalidAction ("Cannot go all-in with no chips"))
    else .ok ()

/-- BettingValidator::calculate_bet_amount. -/
def calculate_bet_amount (action : Action) (player : Player)
    (round : BettingRound) : Nat :=
  match action with
  | Action.Fold | Action.Check => 0
  | Action.Call => min (round.amount_to_call player.id) player.chips
  | Action.Bet amount => min amount player.chips
  | Action.Raise raise_amount =>
    min (round.amount_to_call player.id + raise_amount) player.chips
  | Action.AllIn => player.chips

/-- BettingValidator::get_valid_actions.  The imperative push sequence is
rendered as list appends in the same order. -/
def get_valid_actions (rules : BettingRules) (player : Player)
    (round : BettingRound) : List Action :=
  if !player.can_act then [] else
  let actions := [Action.Fold]
  let to_call := round.amount_to_call player.id
  let actions :=
    if to_call = 0 then
      let actions := actions ++ [Action.Check]
      if round.current_bet = 0 then
        if player.chips ≥ rules.big_blind then actions ++ [Action.Bet rules.big_blind]
        else actions
      else
        let min_raise := max round.minimum_raise rules.big_blind
        if player.chips ≥ min_raise then actions ++ [Action.Raise min_raise]
        else actions
    else
      let actions :=
        if player.chips ≥ to_call then actions ++ [Action.Call] else actions
      let min_raise := max round.minimum_raise rules.big_blind
      if player.chips ≥ to_call + min_raise then actions ++ [Action.Raise min_raise]
      else actions
  if player.chips > 0 then actions ++ [Action.AllIn] else actions

/-- SidePot from betting.rs. -/
structure SidePot where
  amount : Nat
  eligible_players : List Nat
deriving DecidableEq

/-- PotManager from betting.rs. -/
structure PotManager where
  main_pot : Nat
  side_pots : List SidePot
deriving DecidableEq

/-- PotManager::new. -/
def PotManager.new : PotManager :=
  { main_pot := 0, side_pots := [] }

/-- The closure get_player_total_bet inside PotManager::calculate_side_pots:
a player's hand contribution is total_bet_this_round when set, otherwise the
per-round map entry. -/
def get_player_total_bet (round : BettingRound) (p : Player) : Nat :=
  if p.total_bet_this_round > 0 then p.total_bet_this_round
  else round.player_bet_amount p.id

/-- One layer of the loop body of PotManager::calculate_side_pots: the
pot collects, from every player whose contribution exceeds the processed
threshold, that excess capped at the layer width; eligibility is
restricted to non-folded, non-sitting-out players whose contribution
reaches the all-in amount. -/
def side_pot_layer (players : List Player) (round : BettingRound)
    (processed all_in_amount : Nat) : SidePot :=
  { amount := (players.map (fun p =>
      if get_player_total_bet round p > processed then
        min (get_player_total_bet round p - processed) (all_in_amount - processed)
      else 0)).sum,
    eligible_players := (players.filter (fun p =>
      get_player_total_bet round p > processed &&
      !(p.status == PlayerStatus.Folded) &&
      !(p.status == PlayerStatus.SittingOut) &&
      get_player_total_bet round p ≥ all_in_amount)).map (fun p => p.id) }

/-- The main loop of PotManager::calculate_side_pots over the sorted
(id, all-in amount) pairs, carrying the accumulated side pots and the
processed threshold.  Returns the final side-pot list and threshold.
A layer is appended only when its amount is positive and some player is
eligible, exactly as in the source. -/
def side_pots_loop (players : List Player) (round : BettingRound) :
    List (Nat × Nat) → Nat → List SidePot → List SidePot × Nat
  | [], processed, pots => (pots, processed)
  | (_, all_in_amount) :: rest, processed, pots =>
    if all_in_amount ≤ processed then
      side_pots_loop players round rest processed pots
    else
      let layer := side_pot_layer players round processed all_in_amount
      let pots :=
        if 0 < layer.amount ∧ layer.eligible_players ≠ [] then pots ++ [layer]
        else pots
      side_pots_loop players round rest all_in_amount pots

/-- PotManager::calculate_side_pots.  The receiver is cleared and fully
overwritten by the source, so the input pot manager is unused.  The
stable sort_by_key over bet amounts is rendered with insertion sort
(stable, sorted by the second component).  The local main_pot_eligible
vector in the source is dead code and is omitted. -/
def calculate_side_pots (_pm : PotManager) (players : List Player)
    (round : BettingRound) : PotManager :=
  let all_in_amounts := (players.filter
      (fun p => p.status == PlayerStatus.AllIn)).map
      (fun p => (p.id, get_player_total_bet round p))
  let sorted := List.insertionSort (fun x y => x.2 ≤ y.2) all_in_amounts
  let r := side_pots_loop players round sorted 0 []
  let side_pots := r.1
  let processed := r.2
  let main_pot := (players.map (fun p =>
    if get_player_total_bet round p > processed then
      get_player_total_bet round p - processed
    else 0)).sum
  if side_pots = [] ∧ main_pot = 0 then
    { main_pot := (players.map (fun p => get_player_total_bet round p)).sum,
      side_pots := side_pots }
  else
    { main_pot := main_pot, side_pots := side_pots }

/-- PotManager::total_pot. -/
def PotManager.total_pot (pm : PotManager) : Nat :=
  pm.main_pot + (pm.side_pots.map (fun sp => sp.amount)).sum

/-- GamePhase from game.rs. -/
inductive GamePhase where
  | PreFlop | Flop | Turn | River | Showdown
deriving DecidableEq

/-- Pot from game.rs (legacy pot tracking kept for backward compatibility). -/
structure Pot where
  amount : Nat
  eligible_players : List Nat
deriving DecidableEq

/-- FSM events from fsm.rs. -/
inductive Event where
  | PlayersReady | BettingRoundComplete | AllButOneFolded
  | ShowdownComplete | WinningsDistributed
deriving DecidableEq

/-- GameState from game.rs.  The deck is the list of cards still to be
drawn, front of the list drawn first (the source draws by popping the back
of a Vec; only the draw order is observable). -/
structure GameState where
  players : List Player
  deck : List Card
  community_cards : List Card
  pots : List Pot
  current_phase : GamePhase
  dealer_position : Nat
  small_blind_position : Nat
  big_blind_position : Nat
  current_player_index : Nat
  small_blind_amount : Nat
  big_blind_amount : Nat
  minimum_bet : Nat
  current_bet : Nat
  last_raiser_index : Option Nat
  action_count : Nat
  hand_number : Nat
  betting_round : BettingRound
  betting_rules : BettingRules
  pot_manager : PotManager

/-- GameState::new from game.rs: blind seats are placed one and two seats
after the dealer, modulo the number of players, with no special case for
heads-up play. -/
def GameState.new (players : List Player) (small_blind big_blind : Nat)
    (dealer_position : Nat) : GameState :=
  let num_players := players.length
  { players := players
    deck := Deck.newCards
    community_cards := []
    pots := [{ amount := 0, eligible_players := [] }]
    current_phase := GamePhase.PreFlop
    dealer_position := dealer_position
    small_blind_position := (dealer_position + 1) % num_players
    big_blind_position := (dealer_position + 2) % num_players
    current_player_index := 0
    small_blind_amount := small_blind
    big_blind_amount := big_blind
    minimum_bet := big_blind
    current_bet := 0
    last_raiser_index := none
    action_count := 0
    hand_number := 0
    betting_round := BettingRound.new
    betting_rules := BettingRules.new small_blind big_blind
    pot_manager := PotManager.new }

/-- GameState::skip_to_next_active_player in game.rs is an unguarded while
loop; it is rendered with fuel (one unit per seat probed).  When no seat can
act the source diverges; the fuelled version then returns the last probed
index, a case no theorem relies on. -/
def skip_loop (players : List Player) : Nat → Nat → Nat
  | idx, 0 => idx
  | idx, fuel + 1 =>
    if (players.getD idx default).can_act then idx
    else skip_loop players ((idx + 1) % players.length) fuel

/-- The pre-flop turn start from game.rs lines 137-138: the seat after the
big blind, then skip seats that cannot act. -/
def preflop_first_to_act (players : List Player) (big_blind_position : Nat) : Nat :=
  skip_loop players ((big_blind_position + 1) % players.length) players.length

/-- The post-street turn start from game.rs lines 232-233
(reset_betting_round): the dealer seat itself, then skip seats that cannot
act. -/
def street_first_to_act (players : List Player) (dealer_position : Nat) : Nat :=
  skip_loop players dealer_position players.length

/-- GameState::active_player_count. -/
def GameState.active_player_count (s : GameState) : Nat :=
  (s.players.filter (fun p => p.is_active)).length

/-- GameState::active_player_ids: list positions (seat indices) of active
players, in seat order. -/
def GameState.active_player_ids (s : GameState) : List Nat :=
  (s.players.enum.filter (fun ip => ip.2.is_active)).map (fun ip => ip.1)

/-- GameState::reset_betting_round. -/
def GameState.reset_betting_round (s : GameState) : GameState :=
  let s := { s with players := s.players.map Player.reset_current_bet,
                    betting_round := s.betting_round.reset,
                    current_bet := 0,
                    minimum_bet := s.big_blind_amount,
                    last_raiser_index := none,
                    action_count := 0 }
  { s with current_player_index := street_first_to_act s.players s.dealer_position }

/-- GameState::deal_community_cards: burn-free dealing of 3/1/1 cards, then
reset of the per-street betting state. -/
def GameState.deal_community_cards (s : GameState) : GameState :=
  let s :=
    match s.current_phase with
    | GamePhase.PreFlop =>
      { s with community_cards := s.community_cards ++ s.deck.take 3,
               deck := s.deck.drop 3, current_phase := GamePhase.Flop }
    | GamePhase.Flop =>
      { s with community_cards := s.community_cards ++ s.deck.take 1,
               deck := s.deck.drop 1, current_phase := GamePhase.Turn }
    | GamePhase.Turn =>
      { s with community_cards := s.community_cards ++ s.deck.take 1,
               deck := s.deck.drop 1, current_phase := GamePhase.River }
    | _ => s
  s.reset_betting_round

/-- GameState::is_betting_round_complete. -/
def GameState.is_betting_round_complete (s : GameState) : Bool :=
  let active_players := s.active_player_count
  if active_players ≤ 1 then true
  else
    let all_matched := (s.players.filter (fun p => p.can_act)).all
      (fun p => p.current_bet == s.current_bet)
    let everyone_acted := s.action_count ≥ active_players
    all_matched && everyone_acted &&
      (match s.last_raiser_index with
       | none => true
       | some i => s.current_player_index == i)

/-- GameState::should_go_to_showdown. -/
def GameState.should_go_to_showdown (s : GameState) : Bool :=
  s.current_phase == GamePhase.River || s.active_player_count ≤ 1

/-- GameState::advance_to_next_player. -/
def GameState.advance_to_next_player (s : GameState) : GameState :=
  let s := { s with current_player_index := (s.current_player_index + 1) % s.players.length }
  let s := { s with current_player_index := skip_loop s.players s.current_player_index s.players.length }
  if s.is_betting_round_complete then
    if s.should_go_to_showdown then { s with current_phase := GamePhase.Showdown }
    else s.deal_community_cards
  else s

/-- GameStateFSM::should_transition from fsm.rs. -/
def GameState.should_transition (s : GameState) : Option Event :=
  if s.active_player_count ≤ 1 then some Event.AllButOneFolded
  else if s.is_betting_round_complete then some Event.BettingRoundComplete
  else none

/-- GameStateFSM::apply_transition from fsm.rs. -/
def GameState.apply_transition (s : GameState) (event : Event) :
    Except PokerError GameState :=
  match event with
  | Event.BettingRoundComplete =>
    match s.current_phase with
    | GamePhase.PreFlop => .ok s.deal_community_cards
    | GamePhase.Flop => .ok s.deal_community_cards
    | GamePhase.Turn => .ok s.deal_community_cards
    | GamePhase.River => .ok { s with current_phase := GamePhase.Showdown }
    | GamePhase.Showdown => .ok s
  | Event.AllButOneFolded => .ok { s with current_phase := GamePhase.Showdown }
  | _ => .error (.InvalidGameState ("Cannot apply event in current state"))

/-- GameState::process_action.  The Rust method mutates in place and
returns Result<()>; here it returns the state as left by the call together
with the error, if any, so that partial mutation on a rejected action is
observable. -/
def GameState.process_action (s : GameState) (action : Action) :
    GameState × Option PokerError :=
  let current_player := s.players.getD s.current_player_index default
  match validate_action s.betting_rules action current_player s.betting_round with
  | .error e => (s, some e)
  | .ok _ =>
    let bet_amount := calculate_bet_amount action current_player s.betting_round
    let after_act : Except PokerError GameState :=
      match action with
      | Action.Fold =>
        .ok { s with players := s.players.set s.current_player_index current_player.fold }
      | Action.Check => .ok s
      | _ =>
        match current_player.bet bet_amount with
        | .error e => .error e
        | .ok bet_player =>
          let player_id := s.current_player_index
          let s := { s with players := s.players.set player_id bet_player }
          let previous_bet := s.betting_round.player_bet_amount player_id
          let round := { s.betting_round with
            player_bets := Function.update s.betting_round.player_bets player_id
              (previous_bet + bet_amount),
            total_pot := s.betting_round.total_pot + bet_amount }
          let round :=
            match action with
            | Action.Bet amount =>
              { round with current_bet := amount, minimum_raise := amount,
                           last_aggressor := some player_id }
            | Action.Raise raise_amount =>
              { round with current_bet := round.current_bet + raise_amount,
                           minimum_raise := raise_amount,
                           last_aggressor := some player_id }
            | Action.AllIn =>
              if bet_amount > round.current_bet then
                { round with current_bet := bet_amount,
                             minimum_raise :=
                               max (bet_amount - round.current_bet)
                                   s.betting_rules.big_blind,
                             last_aggressor := some player_id }
              else round
            | _ => round
          let s := { s with betting_round := round }
          let s := { s with pot_manager := calculate_side_pots s.pot_manager s.players s.betting_round }
          let s := { s with pots := s.pots.modifyHead (fun pot => { pot with amount := s.pot_manager.total_pot }) }
          .ok { s with current_bet := s.betting_round.current_bet,
                       minimum_bet := s.betting_round.minimum_raise,
                       last_raiser_index := s.betting_round.last_aggressor }
    match after_act with
    | .error e => (s, some e)
    | .ok s1 =>
      let s2 := { s1 with action_count := s1.action_count + 1 }
      let s2 := s2.advance_to_next_player
      match s2.should_transition with
      | none => (s2, none)
      | some event =>
        match s2.apply_transition event with
        | .ok s3 => (s3, none)
        | .error e => (s2, some e)

/-- The dealer-advance scan inside GameState::advance_dealer_position
(bounded by one attempt per seat in the source itself). -/
def advance_dealer_loop (players : List Player) (next_dealer attempts : Nat) : Nat :=
  if h : (!(players.getD next_dealer default).is_active
          && attempts < players.length) = true then
    advance_dealer_loop players ((next_dealer + 1) % players.length) (attempts + 1)
  else next_dealer
termination_by players.length - attempts
decreasing_by
  simp only [Bool.and_eq_true, decide_eq_true_eq] at h
  omega

/-- GameState::advance_dealer_position. -/
def GameState.advance_dealer_position (s : GameState) : GameState :=
  let num_players := s.players.length
  let next_dealer :=
    advance_dealer_loop s.players ((s.dealer_position + 1) % num_players) 0
  { s with dealer_position := next_dealer,
           small_blind_position := (next_dealer + 1) % num_players,
           big_blind_position := (next_dealer + 2) % num_players }

/-- GameState::post_blinds.  Each blind is clamped to the seat's stack; the
source unwraps Player::bet, which cannot fail on a clamped amount, so the
unwrap is modelled by getD of the unchanged player. -/
def GameState.post_blinds (s : GameState) : GameState :=
  let sbp := s.players.getD s.small_blind_position default
  let small_blind_amount := min s.small_blind_amount sbp.chips
  let s := { s with
    players := s.players.set s.small_blind_position
      ((sbp.bet small_blind_amount).toOption.getD sbp),
    betting_round := { s.betting_round with
      player_bets := Function.update s.betting_round.player_bets
        s.small_blind_position small_blind_amount,
      total_pot := s.betting_round.total_pot + small_blind_amount },
    pots := s.pots.modifyHead
      (fun pot => { pot with amount := pot.amount + small_blind_amount }) }
  let bbp := s.players.getD s.big_blind_position default
  let big_blind_amount := min s.big_blind_amount bbp.chips
  let s := { s with
    players := s.players.set s.big_blind_position
      ((bbp.bet big_blind_amount).toOption.getD bbp),
    betting_round := { s.betting_round with
      player_bets := Function.update s.betting_round.player_bets
        s.big_blind_position big_blind_amount,
      total_pot := s.betting_round.total_pot + big_blind_amount,
      current_bet := big_blind_amount,
      minimum_raise := big_blind_amount },
    pots := s.pots.modifyHead
      (fun pot => { pot with amount := pot.amount + big_blind_amount }) }
  { s with current_bet := big_blind_amount }

/-- The dealing loop of GameState::deal_hole_cards: two cards per active
player, in seat order.  An exhausted deck panics in the source; here the
player is simply left without cards, a case no theorem relies on. -/
def deal_hole_cards_loop (deck : List Card) :
    List Player → List Player × List Card
  | [] => ([], deck)
  | p :: rest =>
    if p.is_active then
      match deck with
      | c1 :: c2 :: deck_rest =>
        let r := deal_hole_cards_loop deck_rest rest
        (p.deal_hole_cards (c1, c2) :: r.1, r.2)
      | _ =>
        let r := deal_hole_cards_loop deck rest
        (p :: r.1, r.2)
    else
      let r := deal_hole_cards_loop deck rest
      (p :: r.1, r.2)

/-- GameState::deal_hole_cards. -/
def GameState.deal_hole_cards_all (s : GameState) : GameState :=
  let r := deal_hole_cards_loop s.deck s.players
  { s with players := r.1, deck := r.2 }

/-- GameState::start_new_hand.  Deck::new followed by shuffle is modelled by
the caller-supplied permutation of the fresh deck. -/
def GameState.start_new_hand (shuffled : List Card) (s : GameState) : GameState :=
  let s := { s with players := s.players.map Player.reset_for_new_hand }
  let s := { s with deck := shuffled }
  let s := { s with community_cards := [] }
  let s := { s with pots := [{ amount := 0, eligible_players := s.active_player_ids }] }
  let s := { s with current_phase := GamePhase.PreFlop,
                    current_bet := 0,
                    minimum_bet := s.big_blind_amount,
                    last_raiser_index := none,
                    action_count := 0 }
  let s := if s.hand_number > 0 then s.advance_dealer_position else s
  let s := { s with hand_number := s.hand_number + 1 }
  let s := s.post_blinds
  let s := s.deal_hole_cards_all
  { s with current_player_index := preflop_first_to_act s.players s.big_blind_position }

/-- The winner selection inside GameState::handle_showdown: the best hand
value among the eligible (seat, hand value) pairs, then every seat tied
with it, in the order of the eligible list.  The source unwraps max() of a
non-empty iterator; getD models that unwrap. -/
def tied_winners (eligible : List (Nat × Nat)) : List Nat :=
  let best := (eligible.map (fun e => e.2)).max?.getD 0
  (eligible.filter (fun e => e.2 == best)).map (fun e => e.1)

/-- The per-layer distribution loop inside GameState::handle_showdown
(lines 436-445 and 465-474): integer share to everyone, remainder to the
winner at position 0, zero payouts skipped. -/
def award (amount : Nat) (winners : List Nat) : List (Nat × Nat) :=
  let pot_share := amount / winners.length
  let remainder := amount % winners.length
  (winners.enum.map
    (fun iw => (iw.2, pot_share + if iw.1 = 0 then remainder else 0))).filter
    (fun e => e.2 > 0)

/-- Sequential application of win_chips at the listed seats, as done by the
distribution loops. -/
def apply_winnings (players : List Player) (entries : List (Nat × Nat)) :
    List Player :=
  entries.foldl (fun ps e =>
    match ps.get? e.1 with
    | some p => ps.set e.1 (p.win_chips e.2)
    | none => ps) players

/-- The showdown hand list built at the top of GameState::handle_showdown:
for each seat in order, non-folded and non-sitting-out players holding hole
cards are paired with the oracle's value of their seven cards (a player
without hole cards is skipped by the `?` operator in the source). -/
def showdown_hands (rank : List Card → Nat) (players : List Player)
    (community_cards : List Card) : List (Nat × Nat) :=
  players.enum.filterMap (fun ip =>
    if !(ip.2.status == PlayerStatus.Folded)
        && !(ip.2.status == PlayerStatus.SittingOut) then
      match ip.2.hole_cards with
      | some hc => some (ip.1, rank ([hc.1, hc.2] ++ community_cards))
      | none => none
    else none)

/-- The per-side-pot body of the distribution loop in
GameState::handle_showdown: a pot with no eligible shown hand is skipped
(continue in the source), otherwise the tied winners split it through
award and the winnings are appended. -/
def showdown_pot_step (active_players : List (Nat × Nat))
    (acc : List Player × List (Nat × Nat)) (sp : SidePot) :
    List Player × List (Nat × Nat) :=
  let eligible_hands := active_players.filter
    (fun e => sp.eligible_players.contains e.1)
  if eligible_hands.isEmpty then acc
  else
    let winners := tied_winners eligible_hands
    let entries := award sp.amount winners
    (apply_winnings acc.1 entries, acc.2 ++ entries)

/-- GameState::handle_showdown, parameterised by the external hand-ranking
oracle (a total order on card sets rendered as a Nat value, higher better;
the source consumes it through HandEvaluator and Ord on Hand).  Returns
none exactly where the source would panic: a positive main pot with no
showdown participant (max() of an empty iterator). -/
def GameState.handle_showdown (rank : List Card → Nat) (s : GameState) :
    Option (GameState × List (Nat × Nat)) :=
  let pm := calculate_side_pots s.pot_manager s.players s.betting_round
  let s := { s with pot_manager := pm }
  let active_players := showdown_hands rank s.players s.community_cards
  let r := pm.side_pots.foldl (showdown_pot_step active_players) (s.players, [])
  let main_result : Option (List Player × List (Nat × Nat)) :=
    if pm.main_pot > 0 then
      if active_players.isEmpty then none
      else
        let winners := tied_winners active_players
        let entries := award pm.main_pot winners
        some (apply_winnings r.1 entries, r.2 ++ entries)
    else some r
  match main_result with
  | none => none
  | some final =>
    some ({ s with players := final.1,
                   pot_manager := PotManager.new,
                   pots := [{ amount := 0,
                              eligible_players := List.range final.1.length }] },
          final.2)

/-- The epilogue of GameState::complete_hand: busted players are dropped;
with fewer than two players left the game is over and the players list is
left as is, otherwise the next hand starts from the supplied shuffled
deck.  The winnings list is returned unchanged either way. -/
def complete_hand_tail (shuffled : List Card)
    (sw : GameState × List (Nat × Nat)) : Option (GameState × List (Nat × Nat)) :=
  let remaining_players := sw.1.players.filter (fun p => p.chips > 0)
  if remaining_players.length < 2 then some sw
  else
    let s2 := { sw.1 with players := remaining_players }
    some (s2.start_new_hand shuffled, sw.2)

/-- GameState::complete_hand, parameterised by the ranking oracle and the
shuffled deck for the next hand.  The source signature is Result but no
execution path constructs an Err; none here stands for the panic inside
handle_showdown. -/
def GameState.complete_hand (rank : List Card → Nat) (shuffled : List Card)
    (s : GameState) : Option (GameState × List (Nat × Nat)) :=
  let settled : Option (GameState × List (Nat × Nat)) :=
    if s.current_phase == GamePhase.Showdown then
      s.handle_showdown rank
    else
      let active_players := s.active_player_ids
      if active_players.length = 1 then
        let winner_idx := active_players.getD 0 0
        let pot_amount := s.pot_manager.total_pot
        some ({ s with players := apply_winnings s.players [(winner_idx, pot_amount)] },
              [(winner_idx, pot_amount)])
      else some (s, [])
  match settled with
  | none => none
  | some sw => complete_hand_tail shuffled sw

/-- Specification-side predicate for claim C5: seat i is the first seat
strictly after seat x (scanning forward with wrap-around) whose player can
act. -/
def first_to_act_strictly_after (players : List Player) (x i : Nat) : Prop :=
  ∃ j < players.length + 1, 1 ≤ j ∧ i = (x + j) % players.length ∧
    (players.getD i default).can_act = true ∧
    ∀ j' < j, 1 ≤ j' →
      (players.getD ((x + j') % players.length) default).can_act = false

/-- Specification-side predicate: seat i is the first seat at or after seat
x (scanning forward with wrap-around) whose player can act. -/
def first_to_act_at_or_after (players : List Player) (x i : Nat) : Prop :=
  ∃ j < players.length, i = (x + j) % players.length ∧
    (players.getD i default).can_act = true ∧
    ∀ j' < j,
      (players.getD ((x + j') % players.length) default).can_act = false

instance (players : List Player) (x i : Nat) :
    Decidable (first_to_act_strictly_after players x i) := by
  unfold first_to_act_strictly_after
  infer_instance

instance (players : List Player) (x i : Nat) :
    Decidable (first_to_act_at_or_after players x i) := by
  unfold first_to_act_at_or_after
  infer_instance

/-- Total partitioned amount of a side-pot list. -/
def pots_sum (pots : List SidePot) : Nat :=
  (pots.map (fun sp => sp.amount)).sum

/-- A side pot is well formed for the player list when its eligible list is
non-empty and every listed id belongs to a non-folded, non-sitting-out
player. -/
def good_pot (players : List Player) (sp : SidePot) : Prop :=
  sp.eligible_players ≠ [] ∧
  ∀ i ∈ sp.eligible_players, ∃ p ∈ players, p.id = i ∧
    p.status ≠ PlayerStatus.Folded ∧ p.status ≠ PlayerStatus.SittingOut

/-- Total contribution of all players to the hand, as read by the pot
partitioning code. -/
def contrib_sum (players : List Player) (round : BettingRound) : Nat :=
  (players.map (fun p => get_player_total_bet round p)).sum

/-- Sum of contributions capped at threshold x; the bookkeeping quantity of
the side-pot conservation argument. -/
def capped_sum (players : List Player) (round : BettingRound) (x : Nat) : Nat :=
  (players.map (fun p => min (get_player_total_bet round p) x)).sum

/-- Total amount a winnings list pays to seat i. -/
def payout_to (entries : List (Nat × Nat)) (i : Nat) : Nat :=
  ((entries.filter (fun e => e.1 == i)).map (fun e => e.2)).sum

instance {ε α : Type} [DecidableEq ε] [DecidableEq α] : DecidableEq (Except ε α)
  | .ok a, .ok b => decidable_of_iff (a = b) (by simp)
  | .ok _, .error _ => isFalse (by simp)
  | .error _, .ok _ => isFalse (by simp)
  | .error e, .error f => decidable_of_iff (e = f) (by simp)

/-- Table rules used by the concrete scenarios: blinds 10/20. -/
def rules0 : BettingRules := BettingRules.new 10 20

/-- A degenerate ranking oracle for scenarios whose outcome does not depend
on hand values. -/
def rank_zero : List Card → Nat := fun _ => 0

/-- Claim C2 scenario: seats 0, 1, 2 all in with hand contributions 50,
150, 300. -/
def c2_players : List Player :=
  [{ id := 0, name := ("p0"), chips := 0, hole_cards := none,
     status := PlayerStatus.AllIn, current_bet := 50, total_bet_this_round := 50 },
   { id := 1, name := ("p1"), chips := 0, hole_cards := none,
     status := PlayerStatus.AllIn, current_bet := 150, total_bet_this_round := 150 },
   { id := 2, name := ("p2"), chips := 0, hole_cards := none,
     status := PlayerStatus.AllIn, current_bet := 300, total_bet_this_round := 300 }]

/-- Claim C3 scenario: an active player with 10 chips facing a current bet
of 100 and no chips yet committed this street. -/
def c3_player : Player :=
  { id := 0, name := ("short"), chips := 10, hole_cards := none,
    status := PlayerStatus.Active, current_bet := 0, total_bet_this_round := 0 }

/-- Claim C3 scenario round: current bet 100, nothing committed. -/
def c3_round : BettingRound := { BettingRound.new with current_bet := 100 }

/-- Claim C4 scenario: heads-up table, both stacks 1000. -/
def c4_players : List Player := [Player.new 0 ("alice") 1000, Player.new 1 ("bob") 1000]

/-- Claim C5 scenario: three players who can all act. -/
def c5_players : List Player :=
  [Player.new 0 ("a") 100, Player.new 1 ("b") 100, Player.new 2 ("c") 100]

/-- Claim C6 scenario: pre-flop state where seat 0 folded after
contributing 30, seat 1 is the sole active player, and the stored pot is
30.  After settlement only one player has chips, so no new hand starts. -/
def c6_state : GameState :=
  let base := GameState.new [Player.new 0 ("a") 0, Player.new 1 ("b") 100] 10 20 0
  let p0 : Player :=
    { id := 0, name := ("a"), chips := 0, hole_cards := none,
      status := PlayerStatus.Folded, current_bet := 30, total_bet_this_round := 30 }
  let p1 : Player :=
    { id := 1, name := ("b"), chips := 100,
      hole_cards := some (Card.new Rank.Ace Suit.Spades, Card.new Rank.King Suit.Spades),
      status := PlayerStatus.Active, current_bet := 0, total_bet_this_round := 0 }
  { base with players := [p0, p1],
              pot_manager := { main_pot := 30, side_pots := [] } }

/-- The result of calling complete_hand on c6_state a second time, before
any new hand was started. -/
def c6_second : Option (GameState × List (Nat × Nat)) :=
  match c6_state.complete_hand rank_zero [] with
  | some sw => sw.1.complete_hand rank_zero []
  | none => none

/-- Claim C7 witness scenario: heads-up state with an outstanding bet of
20, so a Check is rejected. -/
def c7_state : GameState :=
  let base := GameState.new [Player.new 0 ("a") 100, Player.new 1 ("b") 100] 10 20 0
  { base with betting_round := { base.betting_round with current_bet := 20 },
              current_bet := 20 }

/-- Claims C9/C10 scenario: a folded player who still holds chips. -/
def c9_player : Player :=
  { id := 0, name := ("folded"), chips := 1000, hole_cards := none,
    status := PlayerStatus.Folded, current_bet := 0, total_bet_this_round := 0 }

end Poker

namespace Poker

/-- Claim C2: with seats 0, 1, 2 in AllIn status contributing 50, 150 and
300, calculate_side_pots yields exactly the three layers 150 for seats
0-2, 200 for seats 1-2 and 150 for seat 2, totalling 500, with no
additional main-pot amount. -/
theorem c2_three_way_all_in_layers :
    calculate_side_pots PotManager.new c2_players BettingRound.new =
      { main_pot := 0,
        side_pots := [{ amount := 150, eligible_players := [0, 1, 2] },
                      { amount := 200, eligible_players := [1, 2] },
                      { amount := 150, eligible_players := [2] }] } ∧
    pots_sum (calculate_side_pots PotManager.new c2_players BettingRound.new).side_pots = 500 ∧
    (calculate_side_pots PotManager.new c2_players BettingRound.new).main_pot = 0 := by
  decide

/-- Counterexample to claim C3: with 10 chips and 100 to call, validation
of Call does not succeed; it is rejected with InsufficientChips. -/
theorem c3_counterexample :
    validate_action rules0 Action.Call c3_player c3_round =
      Except.error (PokerError.InsufficientChips 100 10) ∧
    validate_action rules0 Action.Call c3_player c3_round ≠ Except.ok () := by
  decide

/-- Claim C3 as amended: an under-funded Call is rejected by
validate_action with InsufficientChips (needed = call amount, available =
stack); calculate_bet_amount nevertheless clamps the Call to the stack,
and AllIn remains legal whenever the player has chips. -/
theorem c3_underfunded_call_rejected (rules : BettingRules) (p : Player)
    (r : BettingRound) (h : p.chips < r.amount_to_call p.id) :
    validate_action rules Action.Call p r =
      Except.error (PokerError.InsufficientChips (r.amount_to_call p.id) p.chips) ∧
    calculate_bet_amount Action.Call p r = p.chips ∧
    (0 < p.chips → validate_action rules Action.AllIn p r = Except.ok ()) := by
  refine ⟨?_, ?_, ?_⟩
  · simp only [validate_action]
    rw [if_neg (by omega), if_pos (by omega)]
  · simp only [calculate_bet_amount]
    omega
  · intro hp
    simp only [validate_action]
    rw [if_neg (by omega)]

/-- Witness for c3_underfunded_call_rejected at the concrete C3
scenario. -/
theorem c3_underfunded_call_rejected_witness :
    c3_player.chips < c3_round.amount_to_call c3_player.id ∧
    (validate_action rules0 Action.Call c3_player c3_round =
      Except.error (PokerError.InsufficientChips (c3_round.amount_to_call c3_player.id) c3_player.chips) ∧
    calculate_bet_amount Action.Call c3_player c3_round = c3_player.chips ∧
    (0 < c3_player.chips → validate_action rules0 Action.AllIn c3_player c3_round = Except.ok ())) :=
  ⟨by decide, c3_underfunded_call_rejected rules0 c3_player c3_round (by decide)⟩

/-- Claim C4, evaluated at the failing input: for a two-player game with
dealer position 0, GameState::new places the small blind at seat 1 and the
big blind at seat 0, so the dealer is not the small blind — contradicting
both the claim and the repository's own test_heads_up_blind_positions. -/
theorem c4_heads_up_blind_positions_bug :
    (GameState.new c4_players 10 20 0).dealer_position = 0 ∧
    (GameState.new c4_players 10 20 0).small_blind_position = 1 ∧
    (GameState.new c4_players 10 20 0).big_blind_position = 0 ∧
    (GameState.new c4_players 10 20 0).small_blind_position ≠
      (GameState.new c4_players 10 20 0).dealer_position := by
  refine ⟨rfl, rfl, rfl, by decide⟩

/-- Counterexample to claim C5: with three players who can all act and
dealer seat 0, the post-street turn pointer computed by
reset_betting_round is seat 0 — the dealer itself — and not the first
seat strictly after the dealer. -/
theorem c5_counterexample :
    street_first_to_act c5_players 0 = 0 ∧
    ¬ first_to_act_strictly_after c5_players 0 (street_first_to_act c5_players 0) := by
  decide

/-- Counterexample to claim C6: on the concrete fold-finished hand
c6_state, complete_hand succeeds and pays seat 1 the 30-chip pot; calling
it a second time before any new hand does not produce an InvalidGameState
error — it succeeds again (paying the same pot a second time). -/
theorem c6_counterexample :
    (c6_state.complete_hand rank_zero []).map (fun sw => sw.2) = some [(1, 30)] ∧
    c6_second.map (fun sw => sw.2) = some [(1, 30)] := by
  constructor
  · decide
  · decide

/-- Counterexample to claim C9: a folded player with chips may Check
according to validate_action (no bet to call), yet get_valid_actions
returns the empty list, so the two disagree. -/
theorem c9_counterexample :
    validate_action rules0 Action.Check c9_player BettingRound.new = Except.ok () ∧
    get_valid_actions rules0 c9_player BettingRound.new = [] := by
  decide

/-- Claim C10: whenever the amount to call is zero, validate_action
accepts Check regardless of the player's status, while Fold is accepted
exactly when the player can act (Active with chips). -/
theorem c10_check_ignores_status (rules : BettingRules) (p : Player)
    (r : BettingRound) (h : r.amount_to_call p.id = 0) :
    validate_action rules Action.Check p r = Except.ok () ∧
    (validate_action rules Action.Fold p r = Except.ok () ↔ p.can_act = true) := by
  constructor
  · simp only [validate_action]
    rw [if_neg (by omega)]
  · simp only [validate_action]
    by_cases hc : p.can_act
    · rw [hc]
      simp
    · simp only [Bool.not_eq_true] at hc
      rw [hc]
      simp

/-- Witness for c10_check_ignores_status: a folded player with chips and
no bet to call has Check accepted and Fold rejected. -/
theorem c10_check_ignores_status_witness :
    BettingRound.new.amount_to_call c9_player.id = 0 ∧
    (validate_action rules0 Action.Check c9_player BettingRound.new = Except.ok () ∧
    (validate_action rules0 Action.Fold c9_player BettingRound.new = Except.ok () ↔
      c9_player.can_act = true)) :=
  ⟨by decide, c10_check_ignores_status rules0 c9_player BettingRound.new (by decide)⟩

theorem layer_pointwise (b p t : Nat) (h : p < t) :
    (if b > p then min (b - p) (t - p) else 0) + min b p = min b t := by
  split_ifs with hb <;> omega

theorem capped_sum_zero (players : List Player) (round : BettingRound) :
    capped_sum players round 0 = 0 := by
  unfold capped_sum
  induction players with
  | nil => rfl
  | cons p ps ih =>
    simp only [List.map_cons, List.sum_cons, Nat.min_zero] at *
    omega

theorem le_sum_map_of_mem {α : Type} (f : α → Nat) {l : List α} {x : α}
    (h : x ∈ l) : f x ≤ (l.map f).sum := by
  induction l with
  | nil => cases h
  | cons a t ih =>
    rcases List.mem_cons.1 h with rfl | hmem
    · simp
    · simp only [List.map_cons, List.sum_cons]
      exact le_add_of_nonneg_of_le (Nat.zero_le _) (ih hmem)

/-- Conservation per layer: the layer amount on top of the capped sum at
the lower threshold gives the capped sum at the upper threshold. -/
theorem side_pot_layer_amount (players : List Player) (round : BettingRound)
    (processed t : Nat) (h : processed < t) :
    (side_pot_layer players round processed t).amount
      + capped_sum players round processed = capped_sum players round t := by
  unfold side_pot_layer capped_sum
  rw [← List.sum_map_add]
  congr 1
  apply List.map_congr_left
  intro p _
  exact layer_pointwise _ _ _ h

theorem side_pot_layer_good (players : List Player) (round : BettingRound)
    (processed t : Nat) (h : processed < t) (q : Player) (hq : q ∈ players)
    (hqAllIn : q.status = PlayerStatus.AllIn)
    (hqbet : get_player_total_bet round q = t) :
    0 < (side_pot_layer players round processed t).amount ∧
    good_pot players (side_pot_layer players round processed t) := by
  have hqfilter : q ∈ players.filter (fun p =>
      get_player_total_bet round p > processed &&
      !(p.status == PlayerStatus.Folded) &&
      !(p.status == PlayerStatus.SittingOut) &&
      get_player_total_bet round p ≥ t) := by
    refine List.mem_filter.2 ⟨hq, ?_⟩
    simp [hqbet, hqAllIn, h]
  have hne : (side_pot_layer players round processed t).eligible_players ≠ [] :=
    List.ne_nil_of_mem (List.mem_map_of_mem _ hqfilter)
  refine ⟨?_, hne, ?_⟩
  · have hterm : (if get_player_total_bet round q > processed then
        min (get_player_total_bet round q - processed) (t - processed)
      else 0) ≤ (players.map (fun p =>
        if get_player_total_bet round p > processed then
          min (get_player_total_bet round p - processed) (t - processed)
        else 0)).sum := le_sum_map_of_mem (fun p =>
        if get_player_total_bet round p > processed then
          min (get_player_total_bet round p - processed) (t - processed)
        else 0) hq
    rw [hqbet, if_pos h] at hterm
    simp only [side_pot_layer]
    omega
  · intro j hj
    obtain ⟨p, hpmem, hpid⟩ := List.mem_map.1 hj
    have hpf := List.mem_filter.1 hpmem
    have h2 := hpf.2
    simp only [Bool.and_eq_true, decide_eq_true_eq, Bool.not_eq_true',
      beq_eq_false_iff_ne] at h2
    exact ⟨p, hpf.1, hpid, h2.1.1.2, h2.1.2⟩

theorem side_pots_loop_spec (players : List Player) (round : BettingRound) :
    ∀ (L : List (Nat × Nat)) (processed : Nat) (pots : List SidePot),
    (∀ pr ∈ L, ∃ q ∈ players, q.status = PlayerStatus.AllIn ∧
      get_player_total_bet round q = pr.2) →
    pots_sum (side_pots_loop players round L processed pots).1
        + capped_sum players round processed
      = pots_sum pots + capped_sum players round
          (side_pots_loop players round L processed pots).2 ∧
    ∃ extra, (side_pots_loop players round L processed pots).1 = pots ++ extra ∧
      ∀ sp ∈ extra, good_pot players sp := by
  intro L
  induction L with
  | nil =>
    intro processed pots _
    exact ⟨by simp [side_pots_loop], [], by simp [side_pots_loop], by simp⟩
  | cons pr rest ih =>
    intro processed pots hL
    obtain ⟨i, a⟩ := pr
    by_cases hle : a ≤ processed
    · rw [show side_pots_loop players round ((i, a) :: rest) processed pots
        = side_pots_loop players round rest processed pots from by
          simp [side_pots_loop, hle]]
      exact ih processed pots (fun pr h => hL pr (List.mem_cons_of_mem _ h))
    · have hlt : processed < a := Nat.lt_of_not_le hle
      obtain ⟨q, hq, hqAllIn, hqbet⟩ := hL (i, a) (List.mem_cons_self _ _)
      obtain ⟨hpos, hgoodlayer⟩ :=
        side_pot_layer_good players round processed a hlt q hq hqAllIn hqbet
      have hstep : side_pots_loop players round ((i, a) :: rest) processed pots
          = side_pots_loop players round rest a
            (pots ++ [side_pot_layer players round processed a]) := by
      
        simp only [side_pots_loop, if_neg hle]
        rw [if_pos ⟨hpos, hgoodlayer.1⟩]
      rw [hstep]
      obtain ⟨hsum, extra, hextra, hgood⟩ :=
        ih a (pots ++ [side_pot_layer players round processed a])
          (fun pr h => hL pr (List.mem_cons_of_mem _ h))
      constructor
      · have hps : pots_sum (pots ++ [side_pot_layer players round processed a])
            = pots_sum pots + (side_pot_layer players round processed a).amount := by
          simp [pots_sum]
        have hlayer := side_pot_layer_amount players round processed a hlt
        omega
      · refine ⟨side_pot_layer players round processed a :: extra, ?_, ?_⟩
        · rw [hextra]
          simp
        · intro sp hsp
          rcases List.mem_cons.1 hsp with rfl | hsp2
          · exact hgoodlayer
          · exact hgood sp hsp2


theorem main_pointwise (b x : Nat) :
    (if b > x then b - x else 0) + min b x = b := by
  split_ifs with hb <;> omega

theorem main_pot_amount (players : List Player) (round : BettingRound) (x : Nat) :
    (players.map (fun p => if get_player_total_bet round p > x then
        get_player_total_bet round p - x else 0)).sum
      + capped_sum players round x = contrib_sum players round := by
  unfold capped_sum contrib_sum
  rw [← List.sum_map_add]
  congr 1
  apply List.map_congr_left
  intro p _
  exact main_pointwise _ _

theorem calculate_side_pots_spec (pm : PotManager) (players : List Player)
    (round : BettingRound) :
    (calculate_side_pots pm players round).main_pot
        + pots_sum (calculate_side_pots pm players round).side_pots
      = contrib_sum players round ∧
    ∀ sp ∈ (calculate_side_pots pm players round).side_pots, good_pot players sp := by
  have hmem : ∀ pr ∈ List.insertionSort (fun x y => x.2 ≤ y.2)
      ((players.filter (fun p => p.status == PlayerStatus.AllIn)).map
        (fun p => (p.id, get_player_total_bet round p))),
      ∃ q ∈ players, q.status = PlayerStatus.AllIn ∧
        get_player_total_bet round q = pr.2 := by
    intro pr hpr
    have hpr2 := (List.mem_insertionSort _).1 hpr
    obtain ⟨p, hpmem, hpeq⟩ := List.mem_map.1 hpr2
    have hpf := List.mem_filter.1 hpmem
    refine ⟨p, hpf.1, by simpa using hpf.2, ?_⟩
    rw [← hpeq]
  obtain ⟨hsum, extra, hextra, hgood⟩ := side_pots_loop_spec players round
    (List.insertionSort (fun x y => x.2 ≤ y.2)
      ((players.filter (fun p => p.status == PlayerStatus.AllIn)).map
        (fun p => (p.id, get_player_total_bet round p)))) 0 [] hmem
  rw [capped_sum_zero] at hsum
  simp only [pots_sum, List.map_nil, List.sum_nil, List.nil_append] at hsum hextra
  simp only [calculate_side_pots]
  split_ifs with hcase
  · obtain ⟨hempty, _⟩ := hcase
    constructor
    · simp [pots_sum, hempty, contrib_sum]
    · intro sp hsp
      rw [hempty] at hsp
      cases hsp
  · have hm := main_pot_amount players round
      (side_pots_loop players round
        (List.insertionSort (fun x y => x.2 ≤ y.2)
          ((players.filter (fun p => p.status == PlayerStatus.AllIn)).map
            (fun p => (p.id, get_player_total_bet round p)))) 0 []).2
    constructor
    · simp only [pots_sum]
      omega
    · intro sp hsp
      rw [hextra] at hsp
      exact hgood sp hsp

/-- Claim C1: after calculate_side_pots, the partitioned total (main pot
plus all side-pot amounts) equals the sum of every player's hand
contribution, every layer's eligible list names only non-folded,
non-sitting-out players, and a layer with non-zero amount has a non-empty
eligible list. -/
theorem c1_pot_partition_exact (players : List Player) (round : BettingRound)
    (pm : PotManager) :
    (calculate_side_pots pm players round).total_pot = contrib_sum players round ∧
    ∀ sp ∈ (calculate_side_pots pm players round).side_pots,
      (∀ i ∈ sp.eligible_players, ∃ p ∈ players, p.id = i ∧
        p.status ≠ PlayerStatus.Folded ∧ p.status ≠ PlayerStatus.SittingOut) ∧
      (sp.amount ≠ 0 → sp.eligible_players ≠ []) := by
  obtain ⟨h1, h2⟩ := calculate_side_pots_spec pm players round
  constructor
  · rw [PotManager.total_pot]
    rw [pots_sum] at h1
    exact h1
  · intro sp hsp
    obtain ⟨hne, helig⟩ := h2 sp hsp
    exact ⟨helig, fun _ => hne⟩

theorem c1_pot_partition_exact_witness :
    (calculate_side_pots PotManager.new c2_players BettingRound.new).total_pot
      = contrib_sum c2_players BettingRound.new ∧
    ∀ sp ∈ (calculate_side_pots PotManager.new c2_players BettingRound.new).side_pots,
      (∀ i ∈ sp.eligible_players, ∃ p ∈ c2_players, p.id = i ∧
        p.status ≠ PlayerStatus.Folded ∧ p.status ≠ PlayerStatus.SittingOut) ∧
      (sp.amount ≠ 0 → sp.eligible_players ≠ []) :=
  c1_pot_partition_exact c2_players BettingRound.new PotManager.new

theorem skip_loop_spec (players : List Player) :
    ∀ (fuel start : Nat), start < players.length →
    (∃ j < fuel, (players.getD ((start + j) % players.length) default).can_act = true) →
    ∃ j < fuel, skip_loop players start fuel = (start + j) % players.length ∧
      (players.getD ((start + j) % players.length) default).can_act = true ∧
      ∀ j' < j, (players.getD ((start + j') % players.length) default).can_act = false := by
  intro fuel
  induction fuel with
  | zero =>
    intro start _ h
    obtain ⟨j, hj, _⟩ := h
    omega
  | succ fuel ih =>
    intro start hstart hex
    by_cases hact : (players.getD start default).can_act = true
    · refine ⟨0, by omega, ?_, ?_, ?_⟩
      · rw [skip_loop, if_pos hact, Nat.add_zero, Nat.mod_eq_of_lt hstart]
      · rw [Nat.add_zero, Nat.mod_eq_of_lt hstart]
        exact hact
      · intro j' hj'
        omega
    · have hnact : (players.getD start default).can_act = false :=
        Bool.not_eq_true _ ▸ Bool.of_not_eq_true hact
      have hn : 0 < players.length := by omega
      have hmod : ∀ j, ((start + 1) % players.length + j) % players.length
          = (start + (j + 1)) % players.length := by
        intro j
        rw [Nat.mod_add_mod]
        congr 1
        omega
      obtain ⟨j, hj, hjact⟩ := hex
      have hjpos : j ≠ 0 := by
        intro h0
        rw [h0, Nat.add_zero, Nat.mod_eq_of_lt hstart] at hjact
        rw [hjact] at hnact
        cases hnact
      obtain ⟨j1, rfl⟩ : ∃ j1, j = j1 + 1 := ⟨j - 1, by omega⟩
      have hex2 : ∃ j0 < fuel, (players.getD
          (((start + 1) % players.length + j0) % players.length) default).can_act = true := by
        refine ⟨j1, by omega, ?_⟩
        rw [hmod]
        exact hjact
      obtain ⟨j0, hj0, heq, hcan, hmin⟩ := ih ((start + 1) % players.length)
        (Nat.mod_lt _ hn) hex2
      refine ⟨j0 + 1, by omega, ?_, ?_, ?_⟩
      · rw [skip_loop, if_neg (by rw [hnact]; exact Bool.false_ne_true), heq, hmod]
      · rw [← hmod]
        exact hcan
      · intro j' hj'
        match j' with
        | 0 =>
          rw [Nat.add_zero, Nat.mod_eq_of_lt hstart]
          exact hnact
        | k + 1 =>
          rw [← hmod]
          exact hmin k (by omega)

/-- Claim C5 as amended: pre-flop the turn pointer computed by the source
is the first seat strictly after the big blind that can act; on later
streets reset_betting_round starts the scan at the dealer seat itself, so
the first player to act is the first seat at or after the dealer that can
act (in particular the dealer acts first whenever it can act); seats that
cannot act (folded, all-in, sitting out, or out of chips) are skipped. -/
theorem c5_first_to_act (players : List Player) (bb dealer : Nat)
    (_hbb : bb < players.length) (hd : dealer < players.length)
    (hex : ∃ k < players.length, (players.getD k default).can_act = true) :
    first_to_act_strictly_after players bb (preflop_first_to_act players bb) ∧
    first_to_act_at_or_after players dealer (street_first_to_act players dealer) := by
  have hn : 0 < players.length := by omega
  obtain ⟨k, hk, hkact⟩ := hex
  have hstep : ∀ start, start < players.length →
      ∃ j < players.length, (start + j) % players.length = k := by
    intro start hs
    refine ⟨(k + (players.length - start)) % players.length,
      Nat.mod_lt _ hn, ?_⟩
    rw [Nat.add_mod_mod]
    have : start + (k + (players.length - start)) = k + players.length := by omega
    rw [this, Nat.add_mod_right, Nat.mod_eq_of_lt hk]
  constructor
  · have hstart : (bb + 1) % players.length < players.length := Nat.mod_lt _ hn
    obtain ⟨j, hj, hjeq⟩ := hstep ((bb + 1) % players.length) hstart
    obtain ⟨j0, hj0, heq, hcan, hmin⟩ := skip_loop_spec players players.length
      ((bb + 1) % players.length) hstart ⟨j, hj, by rw [hjeq]; exact hkact⟩
    have hmod : ∀ j, ((bb + 1) % players.length + j) % players.length
        = (bb + (j + 1)) % players.length := by
      intro j
      rw [Nat.mod_add_mod]
      congr 1
      omega
    refine ⟨j0 + 1, by omega, by omega, ?_, ?_, ?_⟩
    · rw [preflop_first_to_act, heq, hmod]
    · rw [preflop_first_to_act, heq]
      exact hcan
    · intro j' hj' hj'1
      obtain ⟨k1, rfl⟩ : ∃ k1, j' = k1 + 1 := ⟨j' - 1, by omega⟩
      rw [← hmod]
      exact hmin k1 (by omega)
  · obtain ⟨j, hj, hjeq⟩ := hstep dealer hd
    obtain ⟨j0, hj0, heq, hcan, hmin⟩ := skip_loop_spec players players.length
      dealer hd ⟨j, hj, by rw [hjeq]; exact hkact⟩
    exact ⟨j0, hj0, by rw [street_first_to_act, heq], by rw [street_first_to_act, heq]; exact hcan, hmin⟩

/-- Witness for c5_first_to_act at the concrete three-player table with
big blind seat 2 and dealer seat 0. -/
theorem c5_first_to_act_witness :
    (2 < c5_players.length ∧ 0 < c5_players.length ∧
      ∃ k < c5_players.length, (c5_players.getD k default).can_act = true) ∧
    (first_to_act_strictly_after c5_players 2 (preflop_first_to_act c5_players 2) ∧
      first_to_act_at_or_after c5_players 0 (street_first_to_act c5_players 0)) :=
  ⟨⟨by decide, by decide, by decide⟩,
    c5_first_to_act c5_players 2 0 (by decide) (by decide) (by decide)⟩

theorem calculate_bet_amount_le (a : Action) (p : Player) (r : BettingRound) :
    calculate_bet_amount a p r ≤ p.chips := by
  cases a <;> simp [calculate_bet_amount]

theorem bet_calc_ne_error (a : Action) (p : Player) (r : BettingRound)
    (e : PokerError) : p.bet (calculate_bet_amount a p r) ≠ .error e := by
  have hle := calculate_bet_amount_le a p r
  unfold Player.bet
  rw [if_neg (by omega)]
  intro h
  cases h

theorem should_transition_cases (s : GameState) (ev : Event)
    (h : s.should_transition = some ev) :
    ev = Event.AllButOneFolded ∨ ev = Event.BettingRoundComplete := by
  unfold GameState.should_transition at h
  split_ifs at h
  · left
    exact (Option.some_inj.1 h).symm
  · right
    exact (Option.some_inj.1 h).symm

theorem apply_transition_ok (s : GameState) (ev : Event)
    (h : ev = Event.AllButOneFolded ∨ ev = Event.BettingRoundComplete) :
    ∃ s2, s.apply_transition ev = .ok s2 := by
  rcases h with rfl | rfl
  · exact ⟨_, rfl⟩
  · cases hp : s.current_phase <;> simp [GameState.apply_transition, hp]

theorem match_tail_no_error (s2 : GameState) :
    (match s2.should_transition with
     | none => (s2, (none : Option PokerError))
     | some event =>
       match s2.apply_transition event with
       | .ok s3 => (s3, none)
       | .error e => (s2, some e)).2 = none := by
  cases hst : s2.should_transition with
  | none => simp
  | some ev =>
    obtain ⟨s3, hs3⟩ := apply_transition_ok s2 ev (should_transition_cases s2 ev hst)
    simp [hs3]

theorem process_action_cases (s : GameState) (a : Action) :
    (∃ e, s.process_action a = (s, some e)) ∨ (s.process_action a).2 = none := by
  unfold GameState.process_action
  cases hv : validate_action s.betting_rules a
      (s.players.getD s.current_player_index default) s.betting_round with
  | error err =>
    left
    refine ⟨err, ?_⟩
    simp only [hv]
  | ok u =>
    right
    simp only [hv]
    cases a
    case Fold => exact match_tail_no_error _
    case Check => exact match_tail_no_error _
    case Call =>
      split
      next e2 heq =>
        exfalso
        rcases hbet : (s.players.getD s.current_player_index default).bet
            (calculate_bet_amount Action.Call
              (s.players.getD s.current_player_index default) s.betting_round) with e3 | q
        · exact bet_calc_ne_error _ _ _ _ hbet
        · rw [hbet] at heq
          simp at heq
      next s1 heq => exact match_tail_no_error _
    case Bet amt =>
      split
      next e2 heq =>
        exfalso
        rcases hbet : (s.players.getD s.current_player_index default).bet
            (calculate_bet_amount (Action.Bet amt)
              (s.players.getD s.current_player_index default) s.betting_round) with e3 | q
        · exact bet_calc_ne_error _ _ _ _ hbet
        · rw [hbet] at heq
          simp at heq
      next s1 heq => exact match_tail_no_error _
    case Raise amt =>
      split
      next e2 heq =>
        exfalso
        rcases hbet : (s.players.getD s.current_player_index default).bet
            (calculate_bet_amount (Action.Raise amt)
              (s.players.getD s.current_player_index default) s.betting_round) with e3 | q
        · exact bet_calc_ne_error _ _ _ _ hbet
        · rw [hbet] at heq
          simp at heq
      next s1 heq => exact match_tail_no_error _
    case AllIn =>
      split
      next e2 heq =>
        exfalso
        rcases hbet : (s.players.getD s.current_player_index default).bet
            (calculate_bet_amount Action.AllIn
              (s.players.getD s.current_player_index default) s.betting_round) with e3 | q
        · exact bet_calc_ne_error _ _ _ _ hbet
        · rw [hbet] at heq
          simp at heq
      next s1 heq => exact match_tail_no_error _



/-- Claim C7: whenever process_action returns an error, the game state
after the call equals the state before it — no chips, statuses, pots,
betting bookkeeping, turn pointer or phase are partially mutated on a
rejected action. -/
theorem c7_no_partial_mutation (s : GameState) (a : Action) (e : PokerError)
    (h : (s.process_action a).2 = some e) : (s.process_action a).1 = s := by
  rcases process_action_cases s a with ⟨e2, heq⟩ | hnone
  · rw [heq]
  · rw [hnone] at h
    cases h

/-- Witness for c7_no_partial_mutation: a Check into an outstanding bet is
rejected and leaves the state untouched. -/
theorem c7_no_partial_mutation_witness :
    (c7_state.process_action Action.Check).2 =
      some (PokerError.InvalidAction ("Cannot check when there is a bet to call")) ∧
    (c7_state.process_action Action.Check).1 = c7_state :=
  ⟨by rfl, c7_no_partial_mutation c7_state Action.Check
    (PokerError.InvalidAction ("Cannot check when there is a bet to call")) (by rfl)⟩

theorem sum_filter_pos (l : List (Nat × Nat)) :
    ((l.filter (fun e => e.2 > 0)).map (fun e => e.2)).sum
      = (l.map (fun e => e.2)).sum := by
  induction l with
  | nil => rfl
  | cons e l ih =>
    rw [List.filter_cons]
    by_cases hpos : e.2 > 0
    · rw [if_pos (by simpa using hpos)]
      simp only [List.map_cons, List.sum_cons, ih]
    · rw [if_neg (by simpa using hpos)]
      simp only [List.map_cons, List.sum_cons, ih]
      omega

theorem sum_map_const {α : Type} (l : List α) (c : Nat) :
    (l.map (fun _ => c)).sum = l.length * c := by
  induction l with
  | nil => simp
  | cons x l ih =>
    simp only [List.map_cons, List.sum_cons, List.length_cons, ih]
    ring

theorem enumFrom_map_award (share rem : Nat) :
    ∀ (t : List Nat) (n : Nat), 1 ≤ n →
    (t.enumFrom n).map (fun iw => (iw.2, share + if iw.1 = 0 then rem else 0))
      = t.map (fun x => (x, share)) := by
  intro t
  induction t with
  | nil => intro n _; rfl
  | cons x t ih =>
    intro n hn
    show ((n, x) :: t.enumFrom (n + 1)).map _ = _
    simp only [List.map_cons]
    rw [if_neg (by omega), ih (n + 1) (by omega)]
    simp

theorem award_cons (A : Nat) (w : Nat) (t : List Nat) :
    award A (w :: t) =
      ((w, A / (w :: t).length + A % (w :: t).length) ::
        t.map (fun x => (x, A / (w :: t).length))).filter (fun e => e.2 > 0) := by
  unfold award
  simp only [show (w :: t).enum = (0, w) :: t.enumFrom 1 from rfl, List.map_cons,
    enumFrom_map_award (A / (w :: t).length) (A % (w :: t).length) t 1 (by omega)]
  simp

theorem payout_to_filter_pos (l : List (Nat × Nat)) (i : Nat) :
    payout_to (l.filter (fun e => e.2 > 0)) i = payout_to l i := by
  induction l with
  | nil => rfl
  | cons e l ih =>
    rw [List.filter_cons]
    by_cases hpos : e.2 > 0
    · rw [if_pos (by simpa using hpos)]
      unfold payout_to
      rw [List.filter_cons, List.filter_cons]
      by_cases hi : e.1 == i
      · simp only [if_pos hi, List.map_cons, List.sum_cons]
        unfold payout_to at ih
        omega
      · simp only [if_neg hi]
        exact ih
    · rw [if_neg (by simpa using hpos)]
      unfold payout_to
      rw [List.filter_cons]
      by_cases hi : e.1 == i
      · simp only [if_pos hi, List.map_cons, List.sum_cons]
        unfold payout_to at ih
        omega
      · simp only [if_neg hi]
        exact ih

theorem payout_to_cons (e : Nat × Nat) (l : List (Nat × Nat)) (i : Nat) :
    payout_to (e :: l) i = (if e.1 = i then e.2 else 0) + payout_to l i := by
  unfold payout_to
  rw [List.filter_cons]
  by_cases hi : e.1 = i
  · rw [if_pos (by simpa using hi), if_pos hi]
    simp
  · rw [if_neg (by simpa using hi), if_neg hi]
    simp

theorem payout_to_const_map (t : List Nat) (c i : Nat) (hnd : t.Nodup) :
    payout_to (t.map (fun x => (x, c))) i = if i ∈ t then c else 0 := by
  induction t with
  | nil => rfl
  | cons x t ih =>
    rw [List.map_cons, payout_to_cons]
    rcases List.nodup_cons.1 hnd with ⟨hx, hnd'⟩
    by_cases hi : x = i
    · subst hi
      rw [if_pos rfl, ih hnd', if_neg hx, if_pos (List.mem_cons_self _ _)]
      simp
    · rw [if_neg hi, ih hnd']
      by_cases hmem : i ∈ t
      · rw [if_pos hmem, if_pos (List.mem_cons_of_mem _ hmem)]
        omega
      · have hni : i ∉ x :: t := by
          intro hmem2
          rcases List.mem_cons.1 hmem2 with rfl | h2
          · exact hi rfl
          · exact hmem h2
        rw [if_neg hmem, if_neg hni]

/-- Claim C8: a pot layer of amount A awarded by the showdown distribution
loop to tied winners listed in increasing seat order pays each winner A
divided by the number of winners, gives the whole remainder A mod n to the
first listed (least) seat, and the payouts sum exactly to A. -/
theorem c8_award_split (A : Nat) (ws : List Nat) (hne : ws ≠ [])
    (hsorted : List.Pairwise (fun a b => a < b) ws) :
    ((award A ws).map (fun e => e.2)).sum = A ∧
    payout_to (award A ws) (ws.headD 0) = A / ws.length + A % ws.length ∧
    (∀ w ∈ ws, w ≠ ws.headD 0 → payout_to (award A ws) w = A / ws.length) ∧
    (∀ w ∈ ws, ws.headD 0 ≤ w) := by
  obtain ⟨w, t, rfl⟩ : ∃ w t, ws = w :: t := by
    cases ws with
    | nil => cases hne rfl
    | cons w t => exact ⟨w, t, rfl⟩
  rcases List.pairwise_cons.1 hsorted with ⟨hlt, hpt⟩
  have hnd : t.Nodup := hpt.imp Nat.ne_of_lt
  have hwnott : w ∉ t := fun hmem => Nat.lt_irrefl w (hlt w hmem)
  have hdm := Nat.div_add_mod A (t.length + 1)
  refine ⟨?_, ?_, ?_, ?_⟩
  · rw [award_cons, sum_filter_pos]
    simp only [List.map_cons, List.sum_cons, List.map_map]
    have : (t.map ((fun e => e.2) ∘ (fun x => (x, A / (w :: t).length)))).sum
        = t.length * (A / (w :: t).length) := sum_map_const _ _
    rw [this]
    simp only [List.length_cons]
    have hmul : (t.length + 1) * (A / (t.length + 1))
        = t.length * (A / (t.length + 1)) + A / (t.length + 1) := by ring
    omega
  · rw [award_cons, payout_to_filter_pos, payout_to_cons,
      payout_to_const_map t _ _ hnd]
    simp only [List.headD_cons]
    simp [hwnott]
  · intro w2 hw2 hne2
    rw [List.headD_cons] at hne2
    have hw2t : w2 ∈ t := by
      rcases List.mem_cons.1 hw2 with rfl | h
      · cases hne2 rfl
      · exact h
    rw [award_cons, payout_to_filter_pos, payout_to_cons,
      payout_to_const_map t _ _ hnd, if_pos hw2t]
    rw [if_neg (show ¬((w, A / (w :: t).length + A % (w :: t).length).1 = w2) from
      fun h => hne2 h.symm)]
    omega
  · intro w2 hw2
    rw [List.headD_cons]
    rcases List.mem_cons.1 hw2 with rfl | h
    · exact Nat.le_refl _
    · exact Nat.le_of_lt (hlt w2 h)

/-- Witness for c8_award_split: a pot of 40 split between tied seats 0 and
1 pays 20 and 20. -/
theorem c8_award_split_witness :
    (([0, 1] : List Nat) ≠ [] ∧ List.Pairwise (fun a b => a < b) [0, 1]) ∧
    (((award 40 [0, 1]).map (fun e => e.2)).sum = 40 ∧
      payout_to (award 40 [0, 1]) (([0, 1] : List Nat).headD 0) = 40 / 2 + 40 % 2 ∧
      (∀ w ∈ ([0, 1] : List Nat), w ≠ ([0, 1] : List Nat).headD 0 →
        payout_to (award 40 [0, 1]) w = 40 / 2) ∧
      (∀ w ∈ ([0, 1] : List Nat), ([0, 1] : List Nat).headD 0 ≤ w)) :=
  ⟨⟨by decide, by decide⟩, c8_award_split 40 [0, 1] (by decide) (by decide)⟩

theorem validate_fold_ok (rules : BettingRules) (p : Player) (r : BettingRound)
    (h : p.can_act = true) : validate_action rules Action.Fold p r = .ok () := by
  simp [validate_action, h]

theorem validate_check_ok (rules : BettingRules) (p : Player) (r : BettingRound)
    (h : r.amount_to_call p.id = 0) :
    validate_action rules Action.Check p r = .ok () := by
  simp only [validate_action]
  rw [if_neg (by omega)]

theorem validate_call_ok (rules : BettingRules) (p : Player) (r : BettingRound)
    (h1 : r.amount_to_call p.id ≠ 0) (h2 : r.amount_to_call p.id ≤ p.chips) :
    validate_action rules Action.Call p r = .ok () := by
  simp only [validate_action]
  rw [if_neg h1, if_neg (by omega)]

theorem validate_bet_ok (rules : BettingRules) (p : Player) (r : BettingRound)
    (amount : Nat) (h1 : r.current_bet = 0) (h2 : rules.big_blind ≤ amount)
    (h3 : amount ≤ p.chips) :
    validate_action rules (Action.Bet amount) p r = .ok () := by
  simp only [validate_action]
  rw [if_neg (by omega), if_neg (by omega), if_neg (by omega)]

theorem validate_raise_ok (rules : BettingRules) (p : Player) (r : BettingRound)
    (amount : Nat) (h1 : r.current_bet ≠ 0)
    (h2 : max r.minimum_raise rules.big_blind ≤ amount)
    (h3 : r.amount_to_call p.id + amount ≤ p.chips) :
    validate_action rules (Action.Raise amount) p r = .ok () := by
  simp only [validate_action]
  rw [if_neg h1, if_neg (by omega), if_neg (by omega)]

theorem validate_allin_ok (rules : BettingRules) (p : Player) (r : BettingRound)
    (h : p.chips ≠ 0) : validate_action rules Action.AllIn p r = .ok () := by
  simp only [validate_action]
  rw [if_neg h]

/-- Claim C9 as amended: every action listed by get_valid_actions is
accepted by validate_action for the same player and round (the converse
direction of the claim is false). -/
theorem c9_valid_actions_sound (rules : BettingRules) (p : Player)
    (r : BettingRound) (a : Action) (h : a ∈ get_valid_actions rules p r) :
    validate_action rules a p r = .ok () := by
  unfold get_valid_actions at h
  by_cases hca : p.can_act
  · rw [if_neg (by simp [hca])] at h
    have hdef : r.amount_to_call p.id = r.current_bet - r.player_bets p.id := rfl
    simp only [ge_iff_le] at h
    repeat' split at h
    all_goals try simp only [List.append_assoc, List.singleton_append, List.cons_append,
      List.nil_append] at h
    all_goals fin_cases h
    all_goals first
      | exact validate_fold_ok rules p r hca
      | exact validate_check_ok rules p r (by omega)
      | exact validate_call_ok rules p r (by omega) (by omega)
      | exact validate_bet_ok rules p r _ (by omega) (by omega) (by omega)
      | exact validate_raise_ok rules p r _ (by omega) (by omega) (by omega)
      | exact validate_allin_ok rules p r (by omega)
  · rw [if_pos (by simp [Bool.not_eq_true] at hca; simp [hca])] at h
    cases h

/-- Witness for c9_valid_actions_sound: Fold taken from the action list of
an unconstrained active player is validated. -/
theorem c9_valid_actions_sound_witness :
    Action.Fold ∈ get_valid_actions rules0 c3_player BettingRound.new ∧
    validate_action rules0 Action.Fold c3_player BettingRound.new = .ok () :=
  ⟨by decide, c9_valid_actions_sound rules0 c3_player BettingRound.new Action.Fold (by decide)⟩

theorem award_sum (A : Nat) (ws : List Nat) (hne : ws ≠ []) :
    ((award A ws).map (fun e => e.2)).sum = A := by
  obtain ⟨w, t, rfl⟩ : ∃ w t, ws = w :: t := by
    cases ws with
    | nil => cases hne rfl
    | cons w t => exact ⟨w, t, rfl⟩
  have hdm := Nat.div_add_mod A (t.length + 1)
  rw [award_cons, sum_filter_pos]
  simp only [List.map_cons, List.sum_cons, List.map_map]
  have hconst : (t.map ((fun e => e.2) ∘ (fun x => (x, A / (w :: t).length)))).sum
      = t.length * (A / (w :: t).length) := sum_map_const _ _
  rw [hconst]
  simp only [List.length_cons]
  have hmul : (t.length + 1) * (A / (t.length + 1))
      = t.length * (A / (t.length + 1)) + A / (t.length + 1) := by ring
  omega

theorem tied_winners_ne_nil (eligible : List (Nat × Nat)) (hne : eligible ≠ []) :
    tied_winners eligible ≠ [] := by
  unfold tied_winners
  cases hmax : (eligible.map (fun e => e.2)).max? with
  | none => exact absurd (List.map_eq_nil_iff.1 (List.max?_eq_none_iff.1 hmax)) hne
  | some m =>
    simp only [Option.getD_some]
    have hm := List.max?_mem (fun x y => max_choice x y) hmax
    obtain ⟨e, he, hesnd⟩ := List.mem_map.1 hm
    have hef : e ∈ eligible.filter (fun e2 => e2.2 == m) :=
      List.mem_filter.2 ⟨he, by simp [hesnd]⟩
    exact List.ne_nil_of_mem (List.mem_map_of_mem _ hef)

theorem showdown_pot_step_skip (active : List (Nat × Nat))
    (acc : List Player × List (Nat × Nat)) (sp : SidePot)
    (h : active.filter (fun e => sp.eligible_players.contains e.1) = []) :
    showdown_pot_step active acc sp = acc := by
  unfold showdown_pot_step
  have hc : (active.filter (fun e => sp.eligible_players.contains e.1)).isEmpty = true := by
    rw [h]
    rfl
  rw [if_pos hc]

theorem showdown_pot_step_snd (active : List (Nat × Nat))
    (acc : List Player × List (Nat × Nat)) (sp : SidePot)
    (h : active.filter (fun e => sp.eligible_players.contains e.1) ≠ []) :
    (showdown_pot_step active acc sp).2
      = acc.2 ++ award sp.amount
          (tied_winners (active.filter (fun e => sp.eligible_players.contains e.1))) := by
  unfold showdown_pot_step
  have hc : ¬ (active.filter (fun e => sp.eligible_players.contains e.1)).isEmpty = true := by
    intro hcontra
    exact h (by simpa using hcontra)
  rw [if_neg hc]

theorem showdown_fold_sum (active : List (Nat × Nat)) :
    ∀ (pots : List SidePot) (acc : List Player × List (Nat × Nat)),
    (∀ sp ∈ pots, active.filter (fun e => sp.eligible_players.contains e.1) ≠ []) →
    ((pots.foldl (showdown_pot_step active) acc).2.map (fun e => e.2)).sum
      = (acc.2.map (fun e => e.2)).sum + pots_sum pots := by
  intro pots
  induction pots with
  | nil =>
    intro acc _
    simp [pots_sum]
  | cons sp rest ih =>
    intro acc hall
    have hsp := hall sp (List.mem_cons_self _ _)
    have hwne := tied_winners_ne_nil _ hsp
    rw [List.foldl_cons]
    rw [ih (showdown_pot_step active acc sp)
      (fun sp2 h2 => hall sp2 (List.mem_cons_of_mem _ h2))]
    rw [showdown_pot_step_snd active acc sp hsp]
    rw [List.map_append, List.sum_append, award_sum _ _ hwne]
    simp only [pots_sum, List.map_cons, List.sum_cons]
    omega

theorem showdown_hands_entry (rank : List Card → Nat) (players : List Player)
    (community : List Card) (i : Nat)
    (Hids : ∀ k, k < players.length → (players.getD k default).id = k)
    (p : Player) (hp : p ∈ players) (hid : p.id = i)
    (hst1 : p.status ≠ PlayerStatus.Folded)
    (hst2 : p.status ≠ PlayerStatus.SittingOut)
    (hc : p.hole_cards ≠ none) :
    ∃ v, (i, v) ∈ showdown_hands rank players community := by
  obtain ⟨idx, hidx⟩ := List.mem_iff_get?.1 hp
  have hlt : idx < players.length := by
    by_contra hge
    rw [List.get?_eq_none.2 (by omega)] at hidx
    cases hidx
  have hgetd : players.getD idx default = p := by
    simp [List.getD_eq_getElem?_getD, ← List.get?_eq_getElem?, hidx]
  have hidx_eq : idx = i := by
    have := Hids idx hlt
    rw [hgetd] at this
    omega
  obtain ⟨hc0, hcs⟩ := Option.ne_none_iff_exists'.1 hc
  subst hidx_eq
  refine ⟨rank ([hc0.1, hc0.2] ++ community), ?_⟩
  unfold showdown_hands
  refine List.mem_filterMap.2 ⟨(idx, p), List.mk_mem_enum_iff_getElem?.2 (by rw [← List.get?_eq_getElem?]; exact hidx), ?_⟩
  have h1 : (!(p.status == PlayerStatus.Folded)
      && !(p.status == PlayerStatus.SittingOut)) = true := by
    simp [hst1, hst2]
  rw [if_pos h1, hcs]



theorem handle_showdown_sum (rank : List Card → Nat) (s : GameState)
    (Hids : ∀ k, k < s.players.length → (s.players.getD k default).id = k)
    (Hcards : ∀ p ∈ s.players, p.status ≠ PlayerStatus.Folded →
      p.status ≠ PlayerStatus.SittingOut → p.hole_cards ≠ none)
    (Hlive : ∃ p ∈ s.players, p.status ≠ PlayerStatus.Folded ∧
      p.status ≠ PlayerStatus.SittingOut) :
    ∃ gw, s.handle_showdown rank = some gw ∧
      (gw.2.map (fun e => e.2)).sum
        = (calculate_side_pots s.pot_manager s.players s.betting_round).total_pot := by
  have hfilters : ∀ sp ∈ (calculate_side_pots s.pot_manager s.players s.betting_round).side_pots,
      (showdown_hands rank s.players s.community_cards).filter
        (fun e => sp.eligible_players.contains e.1) ≠ [] := by
    intro sp hsp
    obtain ⟨hne, helig⟩ :=
      (calculate_side_pots_spec s.pot_manager s.players s.betting_round).2 sp hsp
    obtain ⟨i, hi⟩ := List.exists_mem_of_ne_nil _ hne
    obtain ⟨p, hp, hpid, hpst1, hpst2⟩ := helig i hi
    obtain ⟨v, hv⟩ := showdown_hands_entry rank s.players s.community_cards i
      Hids p hp hpid hpst1 hpst2 (Hcards p hp hpst1 hpst2)
    refine List.ne_nil_of_mem (List.mem_filter.2 ⟨hv, ?_⟩)
    exact List.elem_eq_true_of_mem hi
  have hactive_ne : showdown_hands rank s.players s.community_cards ≠ [] := by
    obtain ⟨p, hp, h1, h2⟩ := Hlive
    obtain ⟨v, hv⟩ := showdown_hands_entry rank s.players s.community_cards p.id
      Hids p hp rfl h1 h2 (Hcards p hp h1 h2)
    exact List.ne_nil_of_mem hv
  have hfold := showdown_fold_sum (showdown_hands rank s.players s.community_cards)
    (calculate_side_pots s.pot_manager s.players s.betting_round).side_pots
    (s.players, []) hfilters
  simp only [List.map_nil, List.sum_nil] at hfold
  simp only [GameState.handle_showdown]
  by_cases hmp : (calculate_side_pots s.pot_manager s.players s.betting_round).main_pot > 0
  · rw [if_pos hmp]
    rw [if_neg (show ¬ (showdown_hands rank s.players s.community_cards).isEmpty = true from
      fun hcontra => hactive_ne (by simpa using hcontra))]
    refine ⟨_, rfl, ?_⟩
    rw [List.map_append, List.sum_append, hfold,
      award_sum _ _ (tied_winners_ne_nil _ hactive_ne)]
    rw [PotManager.total_pot]
    rw [show ((calculate_side_pots s.pot_manager s.players s.betting_round).side_pots.map
      (fun sp => sp.amount)).sum = pots_sum
        (calculate_side_pots s.pot_manager s.players s.betting_round).side_pots from rfl]
    omega
  · rw [if_neg hmp]
    refine ⟨_, rfl, ?_⟩
    rw [hfold, PotManager.total_pot]
    rw [show ((calculate_side_pots s.pot_manager s.players s.betting_round).side_pots.map
      (fun sp => sp.amount)).sum = pots_sum
        (calculate_side_pots s.pot_manager s.players s.betting_round).side_pots from rfl]
    omega



/-- Claim C6 as amended: on a finished hand, one call of complete_hand
succeeds with winnings summing to the pot being settled — the freshly
recomputed pot partition total in the showdown case (given seat-aligned
ids, hole cards for every non-folded player, and at least one non-folded
player), and the stored pot-manager total in the folded-out case.  The
second half of the original claim is false: complete_hand has no
InvalidGameState path, so a premature second call succeeds again. -/
theorem c6_complete_hand_settlement (rank : List Card → Nat)
    (shuffled : List Card) (s : GameState)
    (Hids : ∀ k, k < s.players.length → (s.players.getD k default).id = k)
    (Hcards : ∀ p ∈ s.players, p.status ≠ PlayerStatus.Folded →
      p.status ≠ PlayerStatus.SittingOut → p.hole_cards ≠ none)
    (Hlive : ∃ p ∈ s.players, p.status ≠ PlayerStatus.Folded ∧
      p.status ≠ PlayerStatus.SittingOut) :
    (s.current_phase = GamePhase.Showdown →
      ∃ sw, s.complete_hand rank shuffled = some sw ∧
        (sw.2.map (fun e => e.2)).sum
          = (calculate_side_pots s.pot_manager s.players s.betting_round).total_pot) ∧
    (s.current_phase ≠ GamePhase.Showdown → s.active_player_ids.length = 1 →
      ∃ sw, s.complete_hand rank shuffled = some sw ∧
        (sw.2.map (fun e => e.2)).sum = s.pot_manager.total_pot) := by
  have htail : ∀ sw : GameState × List (Nat × Nat),
      ∃ sw2, complete_hand_tail shuffled sw = some sw2 ∧ sw2.2 = sw.2 := by
    intro sw
    unfold complete_hand_tail
    by_cases h : (sw.1.players.filter (fun p => p.chips > 0)).length < 2
    · rw [if_pos h]
      exact ⟨sw, rfl, rfl⟩
    · rw [if_neg h]
      exact ⟨_, rfl, rfl⟩
  constructor
  · intro hph
    obtain ⟨gw, hgw, hsum⟩ := handle_showdown_sum rank s Hids Hcards Hlive
    obtain ⟨sw2, hsw2, hsnd⟩ := htail gw
    simp only [GameState.complete_hand]
    rw [if_pos (show (s.current_phase == GamePhase.Showdown) = true by rw [hph]; rfl)]
    simp only [hgw]
    exact ⟨sw2, hsw2, by rw [hsnd]; exact hsum⟩
  · intro hph hact
    simp only [GameState.complete_hand]
    rw [if_neg (show ¬ (s.current_phase == GamePhase.Showdown) = true from
      fun hc => hph (by simpa using hc))]
    rw [if_pos hact]
    obtain ⟨sw2, hsw2, hsnd⟩ := htail
      ({ s with players := apply_winnings s.players [(s.active_player_ids.getD 0 0, s.pot_manager.total_pot)] },
        [(s.active_player_ids.getD 0 0, s.pot_manager.total_pot)])
    refine ⟨sw2, hsw2, ?_⟩
    rw [hsnd]
    simp

/-- Witness for c6_complete_hand_settlement at the concrete fold-finished
hand c6_state: seat 1 collects the stored 30-chip pot. -/
theorem c6_complete_hand_settlement_witness :
    ((∀ k, k < c6_state.players.length → (c6_state.players.getD k default).id = k) ∧
     (∀ p ∈ c6_state.players, p.status ≠ PlayerStatus.Folded →
       p.status ≠ PlayerStatus.SittingOut → p.hole_cards ≠ none) ∧
     (∃ p ∈ c6_state.players, p.status ≠ PlayerStatus.Folded ∧
       p.status ≠ PlayerStatus.SittingOut)) ∧
    ((c6_state.current_phase = GamePhase.Showdown →
      ∃ sw, c6_state.complete_hand rank_zero [] = some sw ∧
        (sw.2.map (fun e => e.2)).sum = (calculate_side_pots c6_state.pot_manager
          c6_state.players c6_state.betting_round).total_pot) ∧
    (c6_state.current_phase ≠ GamePhase.Showdown →
      c6_state.active_player_ids.length = 1 →
      ∃ sw, c6_state.complete_hand rank_zero [] = some sw ∧
        (sw.2.map (fun e => e.2)).sum = c6_state.pot_manager.total_pot)) :=
  ⟨⟨by decide, by decide, by decide⟩,
    c6_complete_hand_settlement rank_zero [] c6_state
      (by decide) (by decide) (by decide)⟩

end Poker
